import Mathlib

set_option maxRecDepth 10000

/-!
Shallow embedding of the acquisition pipeline of `src/api.rs` from the
s3bmsdashboard repository, together with theorems settling the frozen claims.

Modelling conventions, used uniformly below:

* Rust `u16`/`u32`/`usize` values are `Nat`; wherever the source performs a
  narrowing cast or an overflowing accumulation, an explicit `% 2 ^ w` is
  written at the same place.
* Rust `f32` is modelled by the exact rationals `ℚ`.  Every concrete input
  appearing in a theorem below uses only values that are exactly representable
  in `f32` (small integers and dyadic fractions), so on those inputs the `f32`
  computation of the source and the rational computation of the model agree
  bit for bit.  The one place the idealisation is visible is division by zero:
  `0.0 / 0.0` is `NaN` in `f32` while `x / 0 = 0` in `ℚ`; no theorem below
  depends on that branch.
* A leg function (the body of a spawned thread) returns `LegOutcome α`:
  `.ok` for `Ok(..)`, `.err msg` for an `anyhow` error carrying the message
  string the source attaches, and `.panicked` for abnormal termination of the
  thread (a failed `unwrap`, an integer division by zero, or an arithmetic
  underflow).  `Request.join` observes exactly this trichotomy through
  `std::thread::JoinHandle::join`.
* The HTTP fetch itself (`ureq::get`) is the I/O boundary and is outside the
  model: each leg is embedded as a function of the response body text, which
  is everything the claims are about.
-/

/-- Outcome of one leg's execution unit: normal return of `Ok`, normal return
of an `anyhow` error (identified by its message string), or a thread panic. -/
inductive LegOutcome (α : Type) where
  | ok : α → LegOutcome α
  | err : String → LegOutcome α
  | panicked : LegOutcome α
deriving DecidableEq

/-- `Main` struct of `api.rs` (pack-level scalars); `f32` fields as `ℚ`. -/
structure Main where
  voltage : ℚ
  current : ℚ
  state_of_charge : ℚ
  temp_avg : ℚ
  temp_min : ℚ
  temp_max : ℚ
  temp_master : ℚ
deriving DecidableEq

/-- `VoltageStats` struct of `api.rs`; `u16` fields as `Nat`. -/
structure VoltageStats where
  avg_voltage : Nat
  min_voltage : Nat
  max_voltage : Nat
  delta_voltage : Nat
deriving DecidableEq

/-- `Ucell` struct of `api.rs`. -/
structure Ucell where
  num_slaves : Nat
  num_cells : Nat
  num_cells_per_slave : Nat
  num_temp_sensors : Nat
  num_safe_resistors : Nat
  overall : VoltageStats
  left : VoltageStats
  right : VoltageStats
  cell_voltage : List Nat
deriving DecidableEq

/-- `TempStats` struct of `api.rs`; `f32` fields as `ℚ`. -/
structure TempStats where
  avg_temp : ℚ
  min_temp : ℚ
  max_temp : ℚ
  delta_temp : ℚ
deriving DecidableEq

/-- `Tcell` struct of `api.rs`. -/
structure Tcell where
  overall : TempStats
  left : TempStats
  right : TempStats
  temp : List ℚ
deriving DecidableEq

/-- `Data` struct of `api.rs`: the complete snapshot of one poll cycle. -/
structure Data where
  main : Main
  ucell : Ucell
  tcell : Tcell
deriving DecidableEq

/-- `api::Error` of `api.rs` (renamed to avoid clashing with common
identifiers): `Unexpected` for a panicked leg, `Fetch` wrapping the leg's own
`anyhow` error. -/
inductive ApiError where
  | unexpected : ApiError
  | fetch : String → ApiError
deriving DecidableEq

/-- `Request` struct of `api.rs`: one handle per leg.  `join` blocks until
every thread has finished, so for the purposes of `Request::join` each handle
is embedded as the leg's eventual `LegOutcome`. -/
structure Request where
  main_task : LegOutcome Main
  ucell_task : LegOutcome Ucell
  tcell_task : LegOutcome Tcell

/-- `join_task` of `api.rs` (lines 120-126): `Ok(Ok(d))` passes through,
`Ok(Err(e))` becomes `Error::Fetch(e)`, a panicked thread (`Err(_)` from
`JoinHandle::join`) becomes `Error::Unexpected`. -/
def join_task {α : Type} (t : LegOutcome α) : Except ApiError α :=
  match t with
  | .ok d => .ok d
  | .err e => .error (.fetch e)
  | .panicked => .error .unexpected

/-- `Request::join` of `api.rs` (lines 111-118): the three legs are joined in
the fixed order main, ucell, tcell; the `?` operator returns the first
failure. -/
def Request.join (r : Request) : Except ApiError Data :=
  match join_task r.main_task with
  | .error e => .error e
  | .ok m =>
    match join_task r.ucell_task with
    | .error e => .error e
    | .ok u =>
      match join_task r.tcell_task with
      | .error e => .error e
      | .ok t => .ok ⟨m, u, t⟩

/-- Rust `str::split(',')` on a character list: separators delimit fields,
the empty string yields one empty field. -/
def splitChar (sep : Char) : List Char → List (List Char)
  | [] => [[]]
  | c :: rest =>
    match splitChar sep rest with
    | [] => [[]]
    | f :: fs => if c = sep then [] :: f :: fs else (c :: f) :: fs

/-- Reads characters up to the next double quote; `none` if no closing quote
exists (in which case the regex has no match). -/
def captureQuoted : List Char → Option (List Char)
  | [] => none
  | c :: rest =>
    if c = '"' then some [] else Option.map (fun l => c :: l) (captureQuoted rest)

/-- The pattern extraction of `api.rs` (lines 8-13): the cached regexes all
have the literal shape `key = "([^"]*)"`, and `Regex::captures` returns the
first match's capture group.  For such a literal pattern the first match
starts at the first occurrence of the text `key = "` and the capture runs to
the next `"`; if no `"` follows the first occurrence then no later start can
complete a match either (any later occurrence of `key = "` itself contains a
`"`), so searching only from the first occurrence is exactly the regex
semantics. -/
def extractAssign (key : List Char) : List Char → Option (List Char)
  | [] => none
  | c :: rest =>
    if List.isPrefixOf (key ++ " = \"".data) (c :: rest) then
      captureQuoted (List.drop (key ++ " = \"".data).length (c :: rest))
    else
      extractAssign key rest

/-- Key of `MAIN_PATTERN`. -/
def mainKey : List Char := "Parametersatz".data

/-- Key of `UCELL_CELLS_PATTERN` and `TCELL_PATTERN` (the same literal). -/
def psetKey : List Char := "PSet".data

/-- Key of `UCELL_STATS_PATTERN`. -/
def pset0Key : List Char := "PSet0".data

/-- Numeric value of a digit string (no sign, no bound check). -/
def digitsVal (ds : List Char) : Nat :=
  ds.foldl (fun n c => n * 10 + (c.toNat - 48)) 0

/-- Rust `str::parse` for an unsigned integer type whose exclusive upper bound
is `bound`: an optional leading `+`, then at least one ASCII digit, value
below the bound; anything else is a parse error. -/
def parseUnsigned (bound : Nat) (f : List Char) : Option Nat :=
  let ds := match f with
    | '+' :: rest => rest
    | _ => f
  if ds ≠ [] ∧ ds.all Char.isDigit then
    if digitsVal ds < bound then some (digitsVal ds) else none
  else none

/-- Exclusive bound of `u16`. -/
def u16Bound : Nat := 2 ^ 16

/-- Exclusive bound of `usize` (64-bit target). -/
def usizeBound : Nat := 2 ^ 64

/-- `parse::<u16>` on one comma field. -/
def parseU16 (f : List Char) : Option Nat := parseUnsigned u16Bound f

/-- `parse::<f32>` of `api.rs`, restricted to the plain decimal forms the
controller emits (optional sign, integer part, optional fractional part);
exponent and special forms (`inf`, `NaN`) are not modelled.  The value is the
exact rational; see the `f32`-as-`ℚ` convention at the top of the file. -/
def parseDecCore (ds : List Char) : Option ℚ :=
  match ds.span (fun c => c ≠ '.') with
  | (ipart, []) =>
    if ipart ≠ [] ∧ ipart.all Char.isDigit then some (digitsVal ipart : ℚ) else none
  | (ipart, _ :: fpart) =>
    if (ipart ≠ [] ∨ fpart ≠ []) ∧ ipart.all Char.isDigit ∧ fpart.all Char.isDigit then
      some ((digitsVal ipart : ℚ) + (digitsVal fpart : ℚ) / (10 : ℚ) ^ fpart.length)
    else none

/-- `parse::<f32>` with the optional leading sign. -/
def parseDecQ (f : List Char) : Option ℚ :=
  match f with
  | '+' :: rest => parseDecCore rest
  | '-' :: rest => Option.map (fun q => -q) (parseDecCore rest)
  | _ => parseDecCore f

/-- `parse_next` of `api.rs` (lines 319-326) at an unsigned integer type:
`iter.next()` returning `None` yields the anyhow error "Value not found", a
field that fails to parse yields "Error parsing value".  The iterator is the
list of remaining comma fields. -/
def parse_next (bound : Nat) : List (List Char) → LegOutcome (Nat × List (List Char))
  | [] => .err "Value not found"
  | f :: rest =>
    match parseUnsigned bound f with
    | some n => .ok (n, rest)
    | none => .err "Error parsing value"

/-- `parse_next` of `api.rs` at type `f32`. -/
def parse_nextF : List (List Char) → LegOutcome (ℚ × List (List Char))
  | [] => .err "Value not found"
  | f :: rest =>
    match parseDecQ f with
    | some q => .ok (q, rest)
    | none => .err "Error parsing value"

/-- Single pass of `voltage_stats` of `api.rs` (lines 267-291): running
(min, max, sum, len) with `min` starting at `u16::MAX`, `max` at 0; `sum` is a
`u32` accumulation and `len` a `u32` counter, hence the `% 2 ^ 32`. -/
def statsGo : List Nat → Nat × Nat × Nat × Nat → Nat × Nat × Nat × Nat
  | [], acc => acc
  | v :: rest, (mn, mx, s, n) =>
    statsGo rest
      (if v < mn then v else mn, if v > mx then v else mx,
       (s + v) % 2 ^ 32, (n + 1) % 2 ^ 32)

/-- `voltage_stats` of `api.rs` (lines 267-291).  On the empty input the
source panics (`delta = max - min` underflows `u16` and `sum / len` divides by
zero), modelled as `none`; otherwise `delta = max - min` and
`avg = (sum / len) as u16`. -/
def voltage_stats (l : List Nat) : Option VoltageStats :=
  match statsGo l (2 ^ 16 - 1, 0, 0, 0) with
  | (mn, mx, s, n) =>
    if n = 0 then none else some ⟨(s / n) % 2 ^ 16, mn, mx, mx - mn⟩

/-- `f32::MAX`, the initial running minimum of `temp_stats`, as an exact
rational. -/
def f32MAX : ℚ := 2 ^ 128 - 2 ^ 104

/-- Single pass of `temp_stats` of `api.rs` (lines 293-317) over rationals. -/
def tstatsGo : List ℚ → ℚ × ℚ × ℚ × ℚ → ℚ × ℚ × ℚ × ℚ
  | [], acc => acc
  | v :: rest, (mn, mx, s, n) =>
    tstatsGo rest
      (if v < mn then v else mn, if v > mx then v else mx, s + v, n + 1)

/-- `temp_stats` of `api.rs` (lines 293-317): min starts at `f32::MAX`, max at
`0.0`; `avg = sum / len`.  On the empty input the source produces `NaN` for
the average (`0.0 / 0.0`) without panicking; in `ℚ` the same expression is
`0`.  No theorem below depends on that branch. -/
def temp_stats (l : List ℚ) : TempStats :=
  match tstatsGo l (f32MAX, 0, 0, 0) with
  | (mn, mx, s, n) => ⟨s / n, mn, mx, mx - mn⟩

/-- `skip` of `api.rs` (lines 328-332) advances the field iterator. -/
def skipFields (n : Nat) (fields : List (List Char)) : List (List Char) :=
  fields.drop n

/-- Decode portion of `main_data` of `api.rs` (lines 133-165), applied to the
extracted `Parametersatz` payload: skip 1, voltage / 1000, skip 2, current,
then skip 2 before each of state-of-charge and the four temperatures, each
divided by 10. -/
def mainBody (payload : List Char) : LegOutcome Main :=
  match parse_nextF (skipFields 1 (splitChar ',' payload)) with
  | .err e => .err e
  | .panicked => .panicked
  | .ok (voltage, r1) =>
    match parse_nextF (skipFields 2 r1) with
    | .err e => .err e
    | .panicked => .panicked
    | .ok (current, r2) =>
      match parse_nextF (skipFields 2 r2) with
      | .err e => .err e
      | .panicked => .panicked
      | .ok (soc, r3) =>
        match parse_nextF (skipFields 2 r3) with
        | .err e => .err e
        | .panicked => .panicked
        | .ok (tavg, r4) =>
          match parse_nextF (skipFields 2 r4) with
          | .err e => .err e
          | .panicked => .panicked
          | .ok (tmin, r5) =>
            match parse_nextF (skipFields 2 r5) with
            | .err e => .err e
            | .panicked => .panicked
            | .ok (tmax, r6) =>
              match parse_nextF (skipFields 2 r6) with
              | .err e => .err e
              | .panicked => .panicked
              | .ok (tmaster, _) =>
                .ok ⟨voltage / 1000, current, soc / 10, tavg / 10, tmin / 10,
                     tmax / 10, tmaster / 10⟩

/-- `main_data` of `api.rs` (lines 128-166) after the HTTP fetch: the
`MAIN_PATTERN.captures(&text).unwrap()` on a document without the key is a
panic of the leg's thread. -/
def mainDataOfText (text : String) : LegOutcome Main :=
  match extractAssign mainKey text.data with
  | none => .panicked
  | some payload => mainBody payload

/-- Cell-voltage array of `ucell` (lines 174-181): split the `PSet` payload at
commas, skip 2 fields, parse each as `u16` with `unwrap_or(0)`. -/
def ucellArray (payload : List Char) : List Nat :=
  ((splitChar ',' payload).drop 2).map (fun f => (parseU16 f).getD 0)

/-- Raw average of `ucell` (line 183): sum as `usize`, divide by the length,
cast to `u16`.  Division by zero (empty array) is a panic, checked by the
caller. -/
def rawAvgU (l : List Nat) : Nat :=
  ((l.foldl (fun s v => (s + v) % 2 ^ 64) 0) / l.length) % 2 ^ 16

/-- Sanitization loop of `ucell` (lines 184-190): every sample strictly
outside [3000, 4200] is replaced in place by `avg`. -/
def sanitizeU (avg : Nat) (l : List Nat) : List Nat :=
  l.map (fun v => if v < 3000 ∨ 4200 < v then avg else v)

/-- The cell-voltage array as it stands after the optional sanitization pass,
as a function of the `safe` flag and the raw `PSet` payload. -/
def sanSel (safe : Bool) (payload : List Char) : List Nat :=
  if safe then sanitizeU (rawAvgU (ucellArray payload)) (ucellArray payload)
  else ucellArray payload

/-- Overall voltage statistics of `ucell` (lines 195-202): max and min are the
unions of the right/left groups, delta their difference, and the average is the
raw pre-sanitization average. -/
def buildOverall (avg : Nat) (right left : VoltageStats) : VoltageStats :=
  ⟨avg, min right.min_voltage left.min_voltage,
   max right.max_voltage left.max_voltage,
   max right.max_voltage left.max_voltage - min right.min_voltage left.min_voltage⟩

/-- Topology decode of `ucell` (lines 204-212): five `parse_next::<usize>`
calls on the `PSet0` payload, in struct order. -/
def decodeTopology (payload : List Char) : LegOutcome (Nat × Nat × Nat × Nat × Nat) :=
  match parse_next usizeBound (splitChar ',' payload) with
  | .err e => .err e
  | .panicked => .panicked
  | .ok (n1, r1) =>
    match parse_next usizeBound r1 with
    | .err e => .err e
    | .panicked => .panicked
    | .ok (n2, r2) =>
      match parse_next usizeBound r2 with
      | .err e => .err e
      | .panicked => .panicked
      | .ok (n3, r3) =>
        match parse_next usizeBound r3 with
        | .err e => .err e
        | .panicked => .panicked
        | .ok (n4, r4) =>
          match parse_next usizeBound r4 with
          | .err e => .err e
          | .panicked => .panicked
          | .ok (n5, _) => .ok (n1, n2, n3, n4, n5)

/-- Body of `ucell` of `api.rs` (lines 173-219) after the `PSet` payload has
been extracted.  Order follows the source: array, raw average (panic on empty
via division by zero), optional sanitization, right = first 72 cells, left =
the rest (a `voltage_stats` panic on an empty group propagates), overall from
the groups, then the `PSet0` extraction (panic if absent) and the five
topology fields. -/
def ucellBody (text : List Char) (safe : Bool) (payload : List Char) : LegOutcome Ucell :=
  if (ucellArray payload).length = 0 then .panicked
  else
    match voltage_stats ((sanSel safe payload).take 72),
          voltage_stats ((sanSel safe payload).drop 72) with
    | some right, some left =>
      match extractAssign pset0Key text with
      | none => .panicked
      | some stats =>
        match decodeTopology stats with
        | .err e => .err e
        | .panicked => .panicked
        | .ok (a, b, c, d, e) =>
          .ok ⟨a, b, c, d, e, buildOverall (rawAvgU (ucellArray payload)) right left,
               left, right, sanSel safe payload⟩
    | _, _ => .panicked

/-- `ucell` of `api.rs` (lines 168-220) after the HTTP fetch. -/
def ucellOfText (text : String) (safe : Bool) : LegOutcome Ucell :=
  match extractAssign psetKey text.data with
  | none => .panicked
  | some payload => ucellBody text.data safe payload

/-- Temperature array of `tcell` (lines 228-235): split the `PSet` payload,
skip 1 field, parse each as `u16` with `unwrap_or(0)` and divide by 10. -/
def tcellArray (payload : List Char) : List ℚ :=
  ((splitChar ',' payload).drop 1).map (fun f => ((parseU16 f).getD 0 : ℚ) / 10)

/-- Raw average of `tcell` (line 237): `f32` sum divided by the length (`NaN`
on the empty array in the source, `0` here; unused by the theorems below). -/
def tcellAvg (l : List ℚ) : ℚ :=
  l.foldl (fun a v => a + v) 0 / (l.length : ℚ)

/-- Sanitization loop of `tcell` (lines 251-257): every sample strictly
outside [15, 45] is replaced by the raw average. -/
def sanitizeT (avg : ℚ) (l : List ℚ) : List ℚ :=
  l.map (fun v => if v < 15 ∨ 45 < v then avg else v)

/-- Body of `tcell` of `api.rs` (lines 227-264) after the `PSet` payload has
been extracted.  Order follows the source: the statistics (right = first 8
sensors, left = the rest, overall from the groups) are computed on the RAW
array, and only afterwards is the array itself sanitized. -/
def tcellBuild (safe : Bool) (payload : List Char) : Tcell :=
  ⟨⟨tcellAvg (tcellArray payload),
    min (temp_stats ((tcellArray payload).take 8)).min_temp
        (temp_stats ((tcellArray payload).drop 8)).min_temp,
    max (temp_stats ((tcellArray payload).take 8)).max_temp
        (temp_stats ((tcellArray payload).drop 8)).max_temp,
    max (temp_stats ((tcellArray payload).take 8)).max_temp
        (temp_stats ((tcellArray payload).drop 8)).max_temp -
      min (temp_stats ((tcellArray payload).take 8)).min_temp
        (temp_stats ((tcellArray payload).drop 8)).min_temp⟩,
   temp_stats ((tcellArray payload).drop 8),
   temp_stats ((tcellArray payload).take 8),
   if safe then sanitizeT (tcellAvg (tcellArray payload)) (tcellArray payload)
   else tcellArray payload⟩

/-- `tcell` of `api.rs` (lines 222-265) after the HTTP fetch. -/
def tcellOfText (text : String) (safe : Bool) : LegOutcome Tcell :=
  match extractAssign psetKey text.data with
  | none => .panicked
  | some payload => .ok (tcellBuild safe payload)

/-! Concrete documents and expected results used by witnesses and
counterexamples.  Payload strings are built once so that the same character
list can be named both inside the document and as the extracted payload. -/

/-- Payload of a healthy 76-cell `PSet` array (all cells at 3500 mV), after
the two skipped leading fields. -/
def pUS : String := "0,0," ++ String.intercalate "," (List.replicate 76 "3500")

/-- A healthy `ucell` response document: topology `2,76,38,16,8` and 76 cells
at 3500 mV. -/
def docU : String := "PSet0 = \"2,76,38,16,8\" PSet = \"" ++ pUS ++ "\""

/-- Expected `Ucell` for `docU` (any `safe` flag): every statistic is 3500. -/
def uW : Ucell :=
  ⟨2, 76, 38, 16, 8, ⟨3500, 3500, 3500, 0⟩, ⟨3500, 3500, 3500, 0⟩,
   ⟨3500, 3500, 3500, 0⟩, List.replicate 76 3500⟩

/-- Payload of a healthy 16-sensor `PSet` temperature array (all 25.0 °C). -/
def pTS : String := "0," ++ String.intercalate "," (List.replicate 16 "250")

/-- A healthy `tcell` response document. -/
def docT : String := "PSet = \"" ++ pTS ++ "\""

/-- Expected `Tcell` for `docT`. -/
def tW : Tcell :=
  ⟨⟨25, 25, 25, 0⟩, ⟨25, 25, 25, 0⟩, ⟨25, 25, 25, 0⟩, List.replicate 16 (25 : ℚ)⟩

/-- A `tcell` document whose 8th sensor reads 60.0 °C, outside the [15, 45]
fence; every value is exactly representable in `f32` and every sum and
quotient below is dyadic, so the `f32` computation agrees exactly. -/
def docT2 : String :=
  "PSet = \"0,200,210,220,230,240,250,260,600,200,210,220,230,240,250,260,270\""

/-- Result of `tcell` on `docT2` with sanitization on: the statistics still
show the raw outlier (overall max 60) while the returned array has it
replaced by the raw average 409/16 = 25.5625. -/
def T2val : Tcell :=
  ⟨⟨409 / 16, 20, 60, 40⟩, ⟨47 / 2, 20, 27, 7⟩, ⟨221 / 8, 20, 60, 40⟩,
   [20, 21, 22, 23, 24, 25, 26, 409 / 16, 20, 21, 22, 23, 24, 25, 26, 27]⟩

/-- Payload of a 76-cell array whose 11th entry is the unparseable text `x`. -/
def p5S : String :=
  "0,0," ++ String.intercalate ","
    (List.replicate 10 "3500" ++ ["x"] ++ List.replicate 65 "3500")

/-- A `ucell` document with one unparseable cell-voltage entry. -/
def doc5 : String := "PSet0 = \"2,76,38,16,8\" PSet = \"" ++ p5S ++ "\""

/-- Result of `ucell` on `doc5` with sanitization off: the leg succeeds and
the unparseable entry has been substituted by 0 (`unwrap_or(0)`). -/
def u5 : Ucell :=
  ⟨2, 76, 38, 16, 8, ⟨3453, 0, 3500, 3500⟩, ⟨3500, 3500, 3500, 0⟩,
   ⟨3451, 0, 3500, 3500⟩, List.replicate 10 3500 ++ [0] ++ List.replicate 65 3500⟩

/-- A `ucell` document whose second `PSet0` topology field is unparseable. -/
def doc5b : String := "PSet0 = \"2,x,38,16,8\" PSet = \"" ++ pUS ++ "\""

/-- A `tcell` document whose 4th sensor entry is the unparseable text `x`. -/
def doc5c : String :=
  "PSet = \"0,250,250,250,x," ++ String.intercalate "," (List.replicate 12 "250") ++ "\""

/-- Result of `tcell` on `doc5c` with sanitization off: the leg succeeds and
the unparseable entry contributes the substituted temperature 0.0. -/
def tC5 : Tcell :=
  ⟨⟨375 / 16, 0, 25, 25⟩, ⟨25, 25, 25, 0⟩, ⟨175 / 8, 0, 25, 25⟩,
   [25, 25, 25, 0] ++ List.replicate 12 (25 : ℚ)⟩

/-- Cell fields of the C10 document: 71 healthy cells, one 5000 mV outlier in
the right (first-72) group, then 4 cells at 3600 mV. -/
def cells10 : List String :=
  List.replicate 71 "3500" ++ ["5000"] ++ List.replicate 4 "3600"

/-- `PSet` payload of the C10 document. -/
def pay10S : String := "0,0," ++ String.intercalate "," cells10

/-- The same payload as a character list (what extraction returns). -/
def pay10 : List Char := pay10S.data

/-- The C10 document. -/
def doc10 : String := "PSet0 = \"2,76,38,16,8\" PSet = \"" ++ pay10S ++ "\""

/-- Result of `ucell` on `doc10` with sanitization on: raw average 3525
(reported as the overall average and substituted for the outlier), while the
group averages are computed on the sanitized array. -/
def u10 : Ucell :=
  ⟨2, 76, 38, 16, 8, ⟨3525, 3500, 3600, 100⟩, ⟨3600, 3600, 3600, 0⟩,
   ⟨3500, 3500, 3525, 25⟩, List.replicate 71 3500 ++ [3525] ++ List.replicate 4 3600⟩

/-- A throwaway `Main` value for exercising `Request.join`. -/
def wMain : Main := ⟨0, 0, 0, 0, 0, 0, 0⟩

/-- A throwaway `Tcell` value for exercising `Request.join`. -/
def wTcell : Tcell := ⟨⟨0, 0, 0, 0⟩, ⟨0, 0, 0, 0⟩, ⟨0, 0, 0, 0⟩, []⟩

/-! Helper lemmas about the single-pass statistics fold. -/

/-- The running minimum never exceeds its initial value. -/
theorem foldMin_le_init (l : List Nat) :
    ∀ a : Nat, l.foldl (fun m w => if w < m then w else m) a ≤ a := by
  induction l with
  | nil => intro a; exact Nat.le_refl a
  | cons v rest ih =>
    intro a
    refine Nat.le_trans (ih _) ?_
    dsimp only
    split <;> omega

/-- The running minimum is a lower bound of every element seen. -/
theorem foldMin_le_mem (l : List Nat) :
    ∀ (a v : Nat), v ∈ l → l.foldl (fun m w => if w < m then w else m) a ≤ v := by
  induction l with
  | nil => intro a v hv; cases hv
  | cons w rest ih =>
    intro a v hv
    rcases List.mem_cons.mp hv with h | h
    · subst h
      refine Nat.le_trans (foldMin_le_init rest _) ?_
      dsimp only
      split <;> omega
    · exact ih _ v h

/-- The running maximum is at least its initial value. -/
theorem init_le_foldMax (l : List Nat) :
    ∀ a : Nat, a ≤ l.foldl (fun m w => if w > m then w else m) a := by
  induction l with
  | nil => intro a; exact Nat.le_refl a
  | cons v rest ih =>
    intro a
    refine Nat.le_trans ?_ (ih _)
    dsimp only
    split <;> omega

/-- The running maximum is an upper bound of every element seen. -/
theorem mem_le_foldMax (l : List Nat) :
    ∀ (a v : Nat), v ∈ l → v ≤ l.foldl (fun m w => if w > m then w else m) a := by
  induction l with
  | nil => intro a v hv; cases hv
  | cons w rest ih =>
    intro a v hv
    rcases List.mem_cons.mp hv with h | h
    · subst h
      refine Nat.le_trans ?_ (init_le_foldMax rest _)
      dsimp only
      split <;> omega
    · exact ih _ v h

/-- The running maximum stays below any strict bound on the initial value and
the elements. -/
theorem foldMax_lt (l : List Nat) :
    ∀ (a C : Nat), a < C → (∀ v ∈ l, v < C) →
      l.foldl (fun m w => if w > m then w else m) a < C := by
  induction l with
  | nil => intro a C ha _; exact ha
  | cons v rest ih =>
    intro a C ha hm
    refine ih _ C ?_ (fun w hw => hm w (List.mem_cons_of_mem v hw))
    have hv := hm v (List.mem_cons_self v rest)
    dsimp only
    split <;> omega

/-- A list sum is bounded by a uniform element bound times the length. -/
theorem sum_le_mul (l : List Nat) :
    ∀ C : Nat, (∀ v ∈ l, v ≤ C) → l.sum ≤ C * l.length := by
  induction l with
  | nil => intro C _; simp
  | cons v rest ih =>
    intro C h
    have hv := h v (List.mem_cons_self v rest)
    have hr := ih C (fun w hw => h w (List.mem_cons_of_mem v hw))
    simp only [List.sum_cons, List.length_cons]
    calc v + rest.sum ≤ C + C * rest.length := by omega
      _ = C * (rest.length + 1) := by ring

/-- A uniform lower bound times the length bounds the list sum from below. -/
theorem mul_le_sum (l : List Nat) :
    ∀ c : Nat, (∀ v ∈ l, c ≤ v) → c * l.length ≤ l.sum := by
  induction l with
  | nil => intro c _; simp
  | cons v rest ih =>
    intro c h
    have hv := h v (List.mem_cons_self v rest)
    have hr := ih c (fun w hw => h w (List.mem_cons_of_mem v hw))
    simp only [List.sum_cons, List.length_cons]
    calc c * (rest.length + 1) = c + c * rest.length := by ring
      _ ≤ v + rest.sum := by omega

/-- Folding the wrapping accumulator never wraps while the true sum stays
below the modulus. -/
theorem foldl_add_mod (m : Nat) :
    ∀ (l : List Nat) (s : Nat), s + l.sum < m →
      l.foldl (fun a v => (a + v) % m) s = s + l.sum := by
  intro l
  induction l with
  | nil => intro s _; simp
  | cons v rest ih =>
    intro s h
    simp only [List.sum_cons] at h ⊢
    have h1 : (s + v) % m = s + v := Nat.mod_eq_of_lt (by omega)
    simp only [List.foldl_cons, h1]
    rw [ih (s + v) (by omega)]
    omega

/-- While the real sum and count stay below `2 ^ 32`, the wrapping single pass
of `voltage_stats` computes the running min, running max, true sum and true
length. -/
theorem statsGo_spec :
    ∀ (l : List Nat) (mn mx s n : Nat),
      s + l.sum < 2 ^ 32 → n + l.length < 2 ^ 32 →
      statsGo l (mn, mx, s, n) =
        (l.foldl (fun m w => if w < m then w else m) mn,
         l.foldl (fun m w => if w > m then w else m) mx,
         s + l.sum, n + l.length) := by
  intro l
  induction l with
  | nil => intro mn mx s n _ _; simp [statsGo]
  | cons v rest ih =>
    intro mn mx s n hs hn
    simp only [List.sum_cons] at hs
    simp only [List.length_cons] at hn
    have h1 : (s + v) % 2 ^ 32 = s + v := Nat.mod_eq_of_lt (by omega)
    have h2 : (n + 1) % 2 ^ 32 = n + 1 := Nat.mod_eq_of_lt (by omega)
    simp only [statsGo, h1, h2]
    rw [ih _ _ (s + v) (n + 1) (by omega) (by omega)]
    simp only [List.foldl_cons, List.sum_cons, List.length_cons, Prod.mk.injEq, true_and]
    omega

/-- The length slot of the single pass, with its `u32` wrap-around, for any
initial count below the modulus. -/
theorem statsGo_len :
    ∀ (l : List Nat) (mn mx s n : Nat), n < 2 ^ 32 →
      (statsGo l (mn, mx, s, n)).2.2.2 = (n + l.length) % 2 ^ 32 := by
  intro l
  induction l with
  | nil =>
    intro mn mx s n hn
    simp only [statsGo, List.length_nil, Nat.add_zero]
    omega
  | cons v rest ih =>
    intro mn mx s n hn
    simp only [statsGo]
    rw [ih _ _ _ _ (Nat.mod_lt _ (by norm_num))]
    simp only [List.length_cons, Nat.mod_add_mod]
    omega

/-- A list of `u16` values has a truncated mean below `2 ^ 16`. -/
theorem sum_div_len_lt (l : List Nat) (h0 : l ≠ []) (hb : ∀ v ∈ l, v < 2 ^ 16) :
    l.sum / l.length < 2 ^ 16 := by
  have hlen : 0 < l.length := List.length_pos.mpr h0
  have h1 : l.sum ≤ (2 ^ 16 - 1) * l.length :=
    sum_le_mul l _ (fun v hv => by have := hb v hv; omega)
  have h2 := Nat.div_le_div_right (c := l.length) h1
  rw [Nat.mul_div_cancel _ hlen] at h2
  omega

/-- Characterisation of `voltage_stats` on a nonempty list of `u16` values of
machine-realistic length: the wrapping accumulators reduce to the true sum and
length, and the `u16` cast of the average is the identity. -/
theorem voltage_stats_eq (l : List Nat) (h0 : l ≠ [])
    (hb : ∀ v ∈ l, v < 2 ^ 16) (hl : l.length ≤ 2 ^ 16) :
    voltage_stats l =
      some ⟨l.sum / l.length,
            l.foldl (fun m w => if w < m then w else m) (2 ^ 16 - 1),
            l.foldl (fun m w => if w > m then w else m) 0,
            l.foldl (fun m w => if w > m then w else m) 0 -
              l.foldl (fun m w => if w < m then w else m) (2 ^ 16 - 1)⟩ := by
  have hlen : 0 < l.length := List.length_pos.mpr h0
  have h1 : l.sum ≤ (2 ^ 16 - 1) * l.length :=
    sum_le_mul l _ (fun v hv => by have := hb v hv; omega)
  have h2 : (2 ^ 16 - 1) * l.length ≤ (2 ^ 16 - 1) * 2 ^ 16 :=
    Nat.mul_le_mul_left _ hl
  have h3 : (2 ^ 16 - 1) * 2 ^ 16 < 2 ^ 32 := by norm_num
  have hsum : l.sum < 2 ^ 32 := by omega
  have hmod : (l.sum / l.length) % 2 ^ 16 = l.sum / l.length :=
    Nat.mod_eq_of_lt (sum_div_len_lt l h0 hb)
  have hspec := statsGo_spec l (2 ^ 16 - 1) 0 0 0 (by omega) (by omega)
  simp only [voltage_stats, hspec, Nat.zero_add]
  rw [if_neg (by omega), hmod]

/-- C9 (confirmed): for every nonempty sequence of `u16` samples of
machine-realistic length (at most `2 ^ 16` samples, which keeps the `u32` sum
accumulator of the source from overflowing), `voltage_stats` succeeds with
`delta = max - min`, `min ≤ max` (so the `u16` subtraction cannot underflow),
`min ≤ avg ≤ max`, and `avg` the integer-truncated mean. -/
theorem stats_bounds (l : List Nat) (h0 : l ≠ []) (hb : ∀ v ∈ l, v < 2 ^ 16)
    (hl : l.length ≤ 2 ^ 16) :
    ∃ s, voltage_stats l = some s ∧
      s.delta_voltage = s.max_voltage - s.min_voltage ∧
      s.min_voltage ≤ s.max_voltage ∧
      s.min_voltage ≤ s.avg_voltage ∧
      s.avg_voltage ≤ s.max_voltage ∧
      s.avg_voltage = l.sum / l.length := by
  have hlen : 0 < l.length := List.length_pos.mpr h0
  refine ⟨_, voltage_stats_eq l h0 hb hl, rfl, ?_, ?_, ?_, rfl⟩
  · obtain ⟨v0, hv0⟩ := List.exists_mem_of_ne_nil l h0
    exact Nat.le_trans (foldMin_le_mem l _ v0 hv0) (mem_le_foldMax l _ v0 hv0)
  · refine (Nat.le_div_iff_mul_le hlen).mpr ?_
    exact mul_le_sum l _ (fun v hv => foldMin_le_mem l _ v hv)
  · have h1 := sum_le_mul l _ (fun v hv => mem_le_foldMax l 0 v hv)
    have h2 := Nat.div_le_div_right (c := l.length) h1
    rwa [Nat.mul_div_cancel _ hlen] at h2

/-- Witness for C9 at the concrete series [1000, 2000]. -/
theorem stats_bounds_witness :
    ∃ s, voltage_stats [1000, 2000] = some s ∧
      s.delta_voltage = s.max_voltage - s.min_voltage ∧
      s.min_voltage ≤ s.max_voltage ∧
      s.min_voltage ≤ s.avg_voltage ∧
      s.avg_voltage ≤ s.max_voltage ∧
      s.avg_voltage = [1000, 2000].sum / [1000, 2000].length :=
  stats_bounds [1000, 2000] (by decide) (by decide) (by decide)

/-- The sanitization loop leaves an entirely in-range list unchanged. -/
theorem sanitizeU_in_range (l : List Nat) :
    ∀ a : Nat, (∀ v ∈ l, 3000 ≤ v ∧ v ≤ 4200) → sanitizeU a l = l := by
  induction l with
  | nil => intro a _; rfl
  | cons v rest ih =>
    intro a h
    have hv := h v (List.mem_cons_self v rest)
    have hr := ih a (fun w hw => h w (List.mem_cons_of_mem v hw))
    simp only [sanitizeU, List.map_cons] at hr ⊢
    rw [if_neg (by omega), hr]

/-- The raw `ucell` average (usize sum, truncated division, `u16` cast) is the
plain truncated mean for nonempty `u16` data of machine-realistic length. -/
theorem rawAvgU_eq (l : List Nat) (h0 : l ≠ [])
    (hb : ∀ v ∈ l, v < 2 ^ 16) (hl : l.length ≤ 2 ^ 16) :
    rawAvgU l = l.sum / l.length := by
  have h1 : l.sum ≤ (2 ^ 16 - 1) * l.length :=
    sum_le_mul l _ (fun v hv => by have := hb v hv; omega)
  have h2 : (2 ^ 16 - 1) * l.length ≤ (2 ^ 16 - 1) * 2 ^ 16 :=
    Nat.mul_le_mul_left _ hl
  have h3 : (2 ^ 16 - 1) * 2 ^ 16 < 2 ^ 64 := by norm_num
  have hsum : 0 + l.sum < 2 ^ 64 := by omega
  unfold rawAvgU
  rw [foldl_add_mod (2 ^ 64) l 0 hsum, Nat.zero_add]
  exact Nat.mod_eq_of_lt (sum_div_len_lt l h0 hb)

/-- C7 (confirmed): on a nonempty array with exactly one sample strictly
outside the [3000, 4200] fence, the sanitization pass replaces exactly that
sample by the integer-truncated average of the whole raw array, leaving every
other entry, the order and the length unchanged.  The array is presented as
`l1 ++ x :: l2` with `x` the unique outlier. -/
theorem single_outlier_replaced (l1 l2 : List Nat) (x : Nat)
    (h1 : ∀ v ∈ l1, 3000 ≤ v ∧ v ≤ 4200) (h2 : ∀ v ∈ l2, 3000 ≤ v ∧ v ≤ 4200)
    (hx : x < 3000 ∨ 4200 < x)
    (hb : ∀ v ∈ l1 ++ x :: l2, v < 2 ^ 16)
    (hl : (l1 ++ x :: l2).length ≤ 2 ^ 16) :
    rawAvgU (l1 ++ x :: l2) = (l1 ++ x :: l2).sum / (l1 ++ x :: l2).length ∧
    sanitizeU (rawAvgU (l1 ++ x :: l2)) (l1 ++ x :: l2) =
      l1 ++ (l1 ++ x :: l2).sum / (l1 ++ x :: l2).length :: l2 := by
  have h0 : l1 ++ x :: l2 ≠ [] := by simp
  have havg := rawAvgU_eq _ h0 hb hl
  refine ⟨havg, ?_⟩
  rw [havg]
  have e1 := sanitizeU_in_range l1 ((l1 ++ x :: l2).sum / (l1 ++ x :: l2).length) h1
  have e2 := sanitizeU_in_range l2 ((l1 ++ x :: l2).sum / (l1 ++ x :: l2).length) h2
  simp only [sanitizeU, List.map_append, List.map_cons] at e1 e2 ⊢
  rw [e1, e2, if_pos hx]

/-- Witness for C7 at the spec's concrete scenario: voltage array
[3000, 4200, 3700, 5000], raw average 3975, outlier 5000 replaced. -/
theorem single_outlier_replaced_witness :
    sanitizeU (rawAvgU [3000, 4200, 3700, 5000]) [3000, 4200, 3700, 5000] =
      [3000, 4200, 3700, 3975] := by
  have h := single_outlier_replaced [3000, 4200, 3700] [] 5000
    (by decide) (by decide) (by decide) (by decide) (by decide)
  exact h.2.trans (by decide)

/-- C4 counterexample: on a document whose cell array is empty, the
cell-voltage leg terminates in a panic (the average at api.rs line 183 divides
by zero) — it does not return a typed error, so the claimed `EmptySeries`
failure does not exist in the code. -/
theorem empty_series_cex : ucellOfText "PSet = \"0,0\"" true = .panicked := by
  decide

/-- C4 amended: the empty series makes the aggregation panic (modelled
`none` — in the source the `u16` subtraction `max - min` underflows and
`sum / len` divides by zero) rather than fail with a typed `EmptySeries`
error; every nonempty series of machine-representable length succeeds; and at
leg level the empty cell array likewise panics for either sanitize flag. -/
theorem empty_series_amended :
    voltage_stats [] = none ∧
    (∀ l : List Nat, l ≠ [] → l.length < 2 ^ 32 → ∃ s, voltage_stats l = some s) ∧
    (∀ safe : Bool, ucellOfText "PSet = \"0,0\"" safe = .panicked) := by
  refine ⟨rfl, ?_, ?_⟩
  · intro l h0 hl
    rcases hgo : statsGo l (2 ^ 16 - 1, 0, 0, 0) with ⟨mn, mx, s, n⟩
    have hn := statsGo_len l (2 ^ 16 - 1) 0 0 0 (by norm_num)
    rw [hgo] at hn
    dsimp only at hn
    have hne : n ≠ 0 := by
      rw [hn, Nat.zero_add, Nat.mod_eq_of_lt hl]
      exact fun h => h0 (List.length_eq_zero.mp h)
    refine ⟨⟨(s / n) % 2 ^ 16, mn, mx, mx - mn⟩, ?_⟩
    unfold voltage_stats
    rw [hgo]
    exact if_neg hne
  · intro safe
    cases safe <;> decide

/-- Witness for C4's amended nonempty-success half at the series [3000]. -/
theorem empty_series_witness : ∃ s, voltage_stats [3000] = some s :=
  empty_series_amended.2.1 [3000] (by decide) (by decide)

/-- C1 counterexample: on a document without the `Parametersatz` key the main
leg panics (`captures(..).unwrap()` on `None`); it does not return the claimed
typed `MalformedDocument` error. -/
theorem missing_key_panics_cex : mainDataOfText "<html></html>" = .panicked := by
  decide

/-- C1 amended: when the expected key is absent the pattern extraction panics
the leg's thread instead of returning a typed error; the panic is contained by
`join`, which reports it as the `Unexpected` variant, so the process itself
does not crash. -/
theorem missing_key_panics :
    (∀ text : String, extractAssign mainKey text.data = none →
      mainDataOfText text = .panicked) ∧
    (∀ (text : String) (safe : Bool), extractAssign psetKey text.data = none →
      ucellOfText text safe = .panicked) ∧
    (∀ (text : String) (safe : Bool), extractAssign psetKey text.data = none →
      tcellOfText text safe = .panicked) ∧
    join_task (LegOutcome.panicked : LegOutcome Main) = .error ApiError.unexpected := by
  refine ⟨?_, ?_, ?_, rfl⟩
  · intro text h
    simp [mainDataOfText, h]
  · intro text safe h
    simp [ucellOfText, h]
  · intro text safe h
    simp [tcellOfText, h]

/-- Witness for C1's amended statement: the cell-voltage leg on a keyless
document panics. -/
theorem missing_key_panics_witness : ucellOfText "<html></html>" true = .panicked :=
  missing_key_panics.2.1 "<html></html>" true (by decide)

/-- C3 (confirmed): `join` produces a complete snapshot exactly when all three
legs returned success; otherwise it surfaces the first-discovered failure in
the fixed order main, ucell, tcell — as `Fetch` when that leg returned a typed
error, as `Unexpected` when that leg's thread terminated abnormally.  A
partially successful snapshot is not constructible (second conjunct). -/
theorem join_spec :
    (∀ (m : Main) (u : Ucell) (t : Tcell),
      Request.join ⟨.ok m, .ok u, .ok t⟩ = .ok ⟨m, u, t⟩) ∧
    (∀ (r : Request) (d : Data), r.join = .ok d →
      r.main_task = .ok d.main ∧ r.ucell_task = .ok d.ucell ∧
        r.tcell_task = .ok d.tcell) ∧
    (∀ (e : String) (ut : LegOutcome Ucell) (tt : LegOutcome Tcell),
      Request.join ⟨.err e, ut, tt⟩ = .error (.fetch e)) ∧
    (∀ (ut : LegOutcome Ucell) (tt : LegOutcome Tcell),
      Request.join ⟨.panicked, ut, tt⟩ = .error .unexpected) ∧
    (∀ (m : Main) (e : String) (tt : LegOutcome Tcell),
      Request.join ⟨.ok m, .err e, tt⟩ = .error (.fetch e)) ∧
    (∀ (m : Main) (tt : LegOutcome Tcell),
      Request.join ⟨.ok m, .panicked, tt⟩ = .error .unexpected) ∧
    (∀ (m : Main) (u : Ucell) (e : String),
      Request.join ⟨.ok m, .ok u, .err e⟩ = .error (.fetch e)) ∧
    (∀ (m : Main) (u : Ucell),
      Request.join ⟨.ok m, .ok u, .panicked⟩ = .error .unexpected) := by
  refine ⟨fun m u t => rfl, ?_, fun e ut tt => rfl, fun ut tt => rfl,
    fun m e tt => rfl, fun m tt => rfl, fun m u e => rfl, fun m u => rfl⟩
  intro r d h
  rcases r with ⟨mt, ut, tt⟩
  cases mt <;> cases ut <;> cases tt <;> simp_all [Request.join, join_task]
  subst h
  exact ⟨rfl, rfl, rfl⟩

/-- Witness for C3's only-if half: a fully successful join determines all
three leg results. -/
theorem join_spec_witness :
    (Request.mk (.ok wMain) (.ok uW) (.ok wTcell)).main_task = .ok wMain ∧
    (Request.mk (.ok wMain) (.ok uW) (.ok wTcell)).ucell_task = .ok uW ∧
    (Request.mk (.ok wMain) (.ok uW) (.ok wTcell)).tcell_task = .ok wTcell :=
  join_spec.2.1 ⟨.ok wMain, .ok uW, .ok wTcell⟩ ⟨wMain, uW, wTcell⟩ rfl

/-- C6 counterexample: a payload with fewer fields than the plan requires can
fail with the parse error instead of the claimed `FieldMissing` ("Value not
found") when one of the present fields is unparseable; and the "Value not
found" error is one constant message — payloads missing different positions
produce identical errors, so the error does not identify the missing
position. -/
theorem short_payload_cex :
    decodeTopology "x,1,2".data = .err "Error parsing value" ∧
    decodeTopology "1".data = .err "Value not found" ∧
    decodeTopology "1,2,3".data = .err "Value not found" :=
  ⟨by decide, by decide, by decide⟩

/-- C6 amended: a payload with fewer comma-separated fields than the
five-field topology plan requires fails with the "Value not found" error
(`FieldMissing`) provided every present field parses as `usize`; the error is
a constant message carrying no position information. -/
theorem short_payload_amended (payload : List Char)
    (hlen : (splitChar ',' payload).length < 5)
    (hp : ∀ f ∈ splitChar ',' payload, (parseUnsigned usizeBound f).isSome) :
    decodeTopology payload = .err "Value not found" := by
  unfold decodeTopology
  generalize hF : splitChar ',' payload = F at hlen hp ⊢
  rcases F with _ | ⟨a, _ | ⟨b, _ | ⟨c, _ | ⟨d, _ | ⟨e, rest⟩⟩⟩⟩⟩
  · simp [parse_next]
  · obtain ⟨na, hna⟩ := Option.isSome_iff_exists.mp (hp a (by simp))
    simp [parse_next, hna]
  · obtain ⟨na, hna⟩ := Option.isSome_iff_exists.mp (hp a (by simp))
    obtain ⟨nb, hnb⟩ := Option.isSome_iff_exists.mp (hp b (by simp))
    simp [parse_next, hna, hnb]
  · obtain ⟨na, hna⟩ := Option.isSome_iff_exists.mp (hp a (by simp))
    obtain ⟨nb, hnb⟩ := Option.isSome_iff_exists.mp (hp b (by simp))
    obtain ⟨nc, hnc⟩ := Option.isSome_iff_exists.mp (hp c (by simp))
    simp [parse_next, hna, hnb, hnc]
  · obtain ⟨na, hna⟩ := Option.isSome_iff_exists.mp (hp a (by simp))
    obtain ⟨nb, hnb⟩ := Option.isSome_iff_exists.mp (hp b (by simp))
    obtain ⟨nc, hnc⟩ := Option.isSome_iff_exists.mp (hp c (by simp))
    obtain ⟨nd, hnd⟩ := Option.isSome_iff_exists.mp (hp d (by simp))
    simp [parse_next, hna, hnb, hnc, hnd]
  · simp only [List.length_cons] at hlen
    omega

/-- Witness for C6's amended statement at the two-field payload `7,8`. -/
theorem short_payload_witness : decodeTopology "7,8".data = .err "Value not found" :=
  short_payload_amended "7,8".data (by decide) (by decide)

/-- C5 counterexample: a cell-voltage array entry that does not parse (`x` in
the 11th cell) does NOT fail the leg: `unwrap_or(0)` substitutes 0 and the leg
succeeds, with the 0 visible in the returned array and statistics. -/
theorem unparseable_cell_cex : ucellOfText doc5 false = .ok u5 := by
  decide

/-- C5 amended: a field decoded through `parse_next` that fails to parse as
its declared numeric type yields the typed "Error parsing value" error
(`FieldUnparseable`), which is terminal for the leg (third conjunct: a bad
topology field fails the whole cell-voltage leg); but an unparseable entry of
the cell-voltage or cell-temperature ARRAY does not fail the leg — it
contributes the substituted value 0 (fourth conjunct: the temperature leg
succeeds with a 0.0 °C entry where the text `x` stood). -/
theorem unparseable_field_amended :
    (∀ (bound : Nat) (f : List Char) (rest : List (List Char)),
      parseUnsigned bound f = none →
      parse_next bound (f :: rest) = .err "Error parsing value") ∧
    (∀ (f : List Char) (rest : List (List Char)),
      parseDecQ f = none →
      parse_nextF (f :: rest) = .err "Error parsing value") ∧
    (∀ safe : Bool, ucellOfText doc5b safe = .err "Error parsing value") ∧
    tcellOfText doc5c false = .ok tC5 := by
  refine ⟨?_, ?_, ?_, by with_unfolding_all decide⟩
  · intro bound f rest h
    simp [parse_next, h]
  · intro f rest h
    simp [parse_nextF, h]
  · intro safe
    cases safe <;> decide

/-- Witness for C5's amended statement: the unparseable field `x` yields the
parse error. -/
theorem unparseable_field_witness :
    parse_next usizeBound ["x".data] = .err "Error parsing value" :=
  unparseable_field_amended.1 usizeBound "x".data [] (by decide)

/-- Inversion of a successful `tcell` leg: the key was present and the result
is the deterministic build from the extracted payload. -/
theorem tcell_ok_elim (text : String) (safe : Bool) (t : Tcell)
    (h : tcellOfText text safe = .ok t) :
    ∃ payload, extractAssign psetKey text.data = some payload ∧
      t = tcellBuild safe payload := by
  unfold tcellOfText at h
  cases hP : extractAssign psetKey text.data with
  | none =>
    rw [hP] at h
    exact absurd h (by simp)
  | some payload =>
    rw [hP] at h
    exact ⟨payload, rfl, (LegOutcome.ok.inj h).symm⟩

/-- Inversion of a successful `ucell` leg: both keys were present, the array
was nonempty, both partitions of the (possibly sanitized) array produced
statistics, the topology decoded, and every field of the result is determined
accordingly. -/
theorem ucell_ok_elim (text : String) (safe : Bool) (u : Ucell)
    (h : ucellOfText text safe = .ok u) :
    ∃ payload stats right left,
      extractAssign psetKey text.data = some payload ∧
      extractAssign pset0Key text.data = some stats ∧
      (ucellArray payload).length ≠ 0 ∧
      voltage_stats ((sanSel safe payload).take 72) = some right ∧
      voltage_stats ((sanSel safe payload).drop 72) = some left ∧
      decodeTopology stats = .ok (u.num_slaves, u.num_cells, u.num_cells_per_slave,
        u.num_temp_sensors, u.num_safe_resistors) ∧
      u.right = right ∧ u.left = left ∧
      u.overall = buildOverall (rawAvgU (ucellArray payload)) right left ∧
      u.cell_voltage = sanSel safe payload := by
  unfold ucellOfText at h
  cases hP : extractAssign psetKey text.data with
  | none =>
    rw [hP] at h
    exact absurd h (by simp)
  | some payload =>
    rw [hP] at h
    unfold ucellBody at h
    by_cases hz : (ucellArray payload).length = 0
    · simp only [if_pos hz] at h
      exact absurd h (by simp)
    · simp only [if_neg hz] at h
      cases hR : voltage_stats ((sanSel safe payload).take 72) with
      | none =>
        simp only [hR] at h
        exact absurd h (by simp)
      | some right =>
        cases hL : voltage_stats ((sanSel safe payload).drop 72) with
        | none =>
          simp only [hR, hL] at h
          exact absurd h (by simp)
        | some left =>
          cases hS : extractAssign pset0Key text.data with
          | none =>
            simp only [hR, hL, hS] at h
            exact absurd h (by simp)
          | some stats =>
            cases hT : decodeTopology stats with
            | err e =>
              simp only [hR, hL, hS, hT] at h
              exact absurd h (by simp)
            | panicked =>
              simp only [hR, hL, hS, hT] at h
              exact absurd h (by simp)
            | ok q =>
              rcases q with ⟨a, b, c, d, e⟩
              simp only [hR, hL, hS, hT] at h
              have hu : u = ⟨a, b, c, d, e,
                  buildOverall (rawAvgU (ucellArray payload)) right left,
                  left, right, sanSel safe payload⟩ := (LegOutcome.ok.inj h).symm
              subst hu
              exact ⟨payload, stats, right, left, rfl, rfl, hz, hR, hL, hT,
                rfl, rfl, rfl, rfl⟩

/-- C8 (confirmed): whenever a leg report is successfully built (for the
temperature leg: from a sensor array with more than 8 entries, so that both
groups are nonempty as the claim requires), the overall statistics are the
union of the groups: max of maxes, min of mins, delta their difference. -/
theorem overall_union :
    (∀ (text : String) (safe : Bool) (u : Ucell), ucellOfText text safe = .ok u →
      u.overall.max_voltage = max u.left.max_voltage u.right.max_voltage ∧
      u.overall.min_voltage = min u.left.min_voltage u.right.min_voltage ∧
      u.overall.delta_voltage = u.overall.max_voltage - u.overall.min_voltage) ∧
    (∀ (text : String) (safe : Bool) (t : Tcell) (payload : List Char),
      extractAssign psetKey text.data = some payload →
      8 < (tcellArray payload).length →
      tcellOfText text safe = .ok t →
      t.overall.max_temp = max t.left.max_temp t.right.max_temp ∧
      t.overall.min_temp = min t.left.min_temp t.right.min_temp ∧
      t.overall.delta_temp = t.overall.max_temp - t.overall.min_temp) := by
  constructor
  · intro text safe u h
    obtain ⟨p, st, right, left, hP, hS, hz, hR, hL, hT, hur, hul, huo, hcv⟩ :=
      ucell_ok_elim text safe u h
    rw [huo, hur, hul]
    exact ⟨by simp [buildOverall, max_comm], by simp [buildOverall, min_comm], rfl⟩
  · intro text safe t payload hP hlen h
    obtain ⟨p, hP', ht⟩ := tcell_ok_elim text safe t h
    have hpp : p = payload := Option.some.inj (hP'.symm.trans hP)
    subst hpp
    subst ht
    exact ⟨by simp [tcellBuild, max_comm], by simp [tcellBuild, min_comm], rfl⟩

/-- Witness for C8 on concrete healthy voltage and temperature documents. -/
theorem overall_union_witness :
    (uW.overall.max_voltage = max uW.left.max_voltage uW.right.max_voltage ∧
     uW.overall.min_voltage = min uW.left.min_voltage uW.right.min_voltage ∧
     uW.overall.delta_voltage = uW.overall.max_voltage - uW.overall.min_voltage) ∧
    (tW.overall.max_temp = max tW.left.max_temp tW.right.max_temp ∧
     tW.overall.min_temp = min tW.left.min_temp tW.right.min_temp ∧
     tW.overall.delta_temp = tW.overall.max_temp - tW.overall.min_temp) :=
  ⟨overall_union.1 docU true uW (by decide),
   overall_union.2 docT true tW pTS.data (by decide)
     (by with_unfolding_all decide) (by with_unfolding_all decide)⟩

/-- C2 counterexample: on `docT2` with sanitization enabled, the temperature
leg's reported overall maximum is the raw outlier 60 °C, while the maximum of
the returned (sanitized) array is 27 °C — the temperature statistics are
computed BEFORE sanitization, contradicting the claim. -/
theorem tcell_stats_before_sanitize_cex :
    tcellOfText docT2 true = .ok T2val ∧
    T2val.overall.max_temp ≠ (temp_stats T2val.temp).max_temp :=
  ⟨by with_unfolding_all decide, by with_unfolding_all decide⟩

/-- C2 amended: for the cell-voltage leg the group statistics (and hence the
overall min/max) are computed from the array AFTER sanitization, and the
returned array is that same sanitized array; for the cell-temperature leg all
statistics are computed from the RAW array before sanitization, and only the
returned array is sanitized. -/
theorem sanitize_stats_order :
    (∀ (text : String) (safe : Bool) (u : Ucell) (payload : List Char),
      extractAssign psetKey text.data = some payload →
      ucellOfText text safe = .ok u →
        voltage_stats ((sanSel safe payload).take 72) = some u.right ∧
        voltage_stats ((sanSel safe payload).drop 72) = some u.left ∧
        u.overall.min_voltage = min u.right.min_voltage u.left.min_voltage ∧
        u.overall.max_voltage = max u.right.max_voltage u.left.max_voltage ∧
        u.cell_voltage = sanSel safe payload) ∧
    (∀ (text : String) (safe : Bool) (t : Tcell) (payload : List Char),
      extractAssign psetKey text.data = some payload →
      tcellOfText text safe = .ok t →
        t.right = temp_stats ((tcellArray payload).take 8) ∧
        t.left = temp_stats ((tcellArray payload).drop 8) ∧
        t.overall.max_temp = max t.right.max_temp t.left.max_temp ∧
        t.temp = (if safe then sanitizeT (tcellAvg (tcellArray payload)) (tcellArray payload)
                  else tcellArray payload)) := by
  constructor
  · intro text safe u payload hP h
    obtain ⟨p, st, right, left, hP', hS, hz, hR, hL, hT, hur, hul, huo, hcv⟩ :=
      ucell_ok_elim text safe u h
    have hpp : p = payload := Option.some.inj (hP'.symm.trans hP)
    subst hpp
    refine ⟨by rw [hur]; exact hR, by rw [hul]; exact hL, ?_, ?_, hcv⟩
    · rw [huo, hur, hul]
      simp [buildOverall]
    · rw [huo, hur, hul]
      simp [buildOverall]
  · intro text safe t payload hP h
    obtain ⟨p, hP', ht⟩ := tcell_ok_elim text safe t h
    have hpp : p = payload := Option.some.inj (hP'.symm.trans hP)
    subst hpp
    subst ht
    exact ⟨rfl, rfl, by simp [tcellBuild], rfl⟩

/-- Witness for C2's amended statement on the concrete healthy documents. -/
theorem sanitize_stats_order_witness :
    voltage_stats ((sanSel true pUS.data).take 72) = some uW.right ∧
    tW.temp = (if true then sanitizeT (tcellAvg (tcellArray pTS.data)) (tcellArray pTS.data)
               else tcellArray pTS.data) :=
  ⟨(sanitize_stats_order.1 docU true uW pUS.data (by decide) (by decide)).1,
   (sanitize_stats_order.2 docT true tW pTS.data (by decide)
     (by with_unfolding_all decide)).2.2.2⟩

/-- C10 (confirmed): with sanitization enabled, the cell-voltage leg reports
as overall average the integer-truncated mean of the RAW, pre-sanitization
array (the same value substituted for outliers), while the left and right
group statistics are computed over the sanitized array; consequently (second
conjunct, at a concrete document where a replacement occurred) the overall
average differs from the truncated mean of the final array and from both
group averages. -/
theorem overall_avg_raw :
    (∀ (text : String) (u : Ucell) (payload : List Char),
      extractAssign psetKey text.data = some payload →
      ucellOfText text true = .ok u →
        u.overall.avg_voltage = rawAvgU (ucellArray payload) ∧
        u.cell_voltage = sanitizeU (rawAvgU (ucellArray payload)) (ucellArray payload) ∧
        voltage_stats (u.cell_voltage.take 72) = some u.right ∧
        voltage_stats (u.cell_voltage.drop 72) = some u.left) ∧
    (∃ u, ucellOfText doc10 true = .ok u ∧
      u.overall.avg_voltage = 3525 ∧
      u.overall.avg_voltage ≠ u.cell_voltage.sum / u.cell_voltage.length ∧
      u.overall.avg_voltage ≠ u.left.avg_voltage ∧
      u.overall.avg_voltage ≠ u.right.avg_voltage ∧
      u.cell_voltage ≠ ucellArray pay10) := by
  constructor
  · intro text u payload hP h
    obtain ⟨p, st, right, left, hP', hS, hz, hR, hL, hT, hur, hul, huo, hcv⟩ :=
      ucell_ok_elim text true u h
    have hpp : p = payload := Option.some.inj (hP'.symm.trans hP)
    subst hpp
    refine ⟨by rw [huo]; rfl, by rw [hcv]; simp [sanSel], ?_, ?_⟩
    · rw [hcv, hur]
      exact hR
    · rw [hcv, hul]
      exact hL
  · exact ⟨u10, by decide, by decide, by decide, by decide, by decide, by decide⟩

/-- Witness for C10's universal half at the concrete outlier document. -/
theorem overall_avg_raw_witness :
    u10.overall.avg_voltage = rawAvgU (ucellArray pay10) :=
  (overall_avg_raw.1 doc10 u10 pay10 (by decide) (by decide)).1
